import Mathlib

/-!
# SPIFFE support of the Traefik TLS layer

A shallow embedding of

* `pkg/spiffe/authorizer.go` (`BuildAuthorizer`),
* `pkg/tls/tls.go` (`SpiffeOptions` and its two mode predicates),
* `pkg/spiffe/spiffetest/fake.go` (`NewPKI`, `PKI.Bundle`, `PKI.GenSVID`),

together with the parts of the Go standard library and of go-spiffe these
functions call.  Go functions returning `(T, error)` return a pair of options
here, `nil` being `none`; a Go panic is an explicit outcome.
-/

namespace Traefik

/-! ## Go runtime values -/

/-- A Go error value: `new text` is `errors.New(text)`, and `wrapf text cause` is
`fmt.Errorf(text + "%w", cause)`, an error that wraps its cause. -/
inductive Error where
  | new (text : String)
  | wrapf (text : String) (cause : Error)
  deriving DecidableEq, Repr

deriving instance DecidableEq for Except

/-- How a Go call ends: it returns a value or it panics. -/
inductive Outcome (α : Type) where
  | ret (val : α)
  | panic (reason : String)
  deriving DecidableEq, Repr

/-! ## go-spiffe: `spiffeid` -/

namespace spiffeid

/-- The type `spiffeid.TrustDomain`: the name of a trust domain. -/
structure TrustDomain where
  name : String
  deriving DecidableEq, Repr

/-- The type `spiffeid.ID`: a trust domain and a path; the zero value has both empty. -/
structure ID where
  td : TrustDomain
  path : String
  deriving DecidableEq, Repr

/-- The type `url.URL`, restricted to the components a SPIFFE identifier sets. -/
structure URL where
  Scheme : String
  Host : String
  Path : String
  deriving DecidableEq, Repr

def TrustDomain.IsZero (td : TrustDomain) : Bool := td.name == ""

def ID.IsZero (id : ID) : Bool := id.td.name == ""

def ID.TrustDomain (id : ID) : TrustDomain := id.td

def ID.Path (id : ID) : String := id.path

/-- The method `ID.String`: the canonical form `spiffe://<trust domain><path>`. -/
def ID.String (id : ID) : String :=
  if id.IsZero then "" else "spiffe://" ++ id.td.name ++ id.path

/-- The method `ID.URL`. -/
def ID.URL (id : ID) : URL :=
  if id.IsZero then ⟨"", "", ""⟩ else ⟨"spiffe", id.td.name, id.path⟩

def errEmpty : Error := .new "cannot be empty"
def errWrongScheme : Error := .new "scheme is missing or invalid"
def errMissingTrustDomain : Error := .new "trust domain is missing"
def errBadTrustDomainChar : Error :=
  .new "trust domain characters are limited to lowercase letters, numbers, dots, dashes, and underscores"
def errNoLeadingSlash : Error := .new "path must have a leading slash"
def errEmptySegment : Error := .new "path cannot contain empty segments"
def errDotSegment : Error := .new "path cannot contain dot segments"
def errTrailingSlash : Error := .new "path cannot have a trailing slash"
def errBadPathSegmentChar : Error :=
  .new "path segment characters are limited to letters, numbers, dots, dashes, and underscores"

def inRange (lo hi c : Char) : Bool := lo.toNat ≤ c.toNat && c.toNat ≤ hi.toNat

def isValidTrustDomainChar (c : Char) : Bool :=
  inRange 'a' 'z' c || inRange '0' '9' c || c == '-' || c == '.' || c == '_'

def isValidPathSegmentChar (c : Char) : Bool :=
  inRange 'a' 'z' c || inRange 'A' 'Z' c || inRange '0' '9' c || c == '-' || c == '.' || c == '_'

/-- The loop of `ValidatePath`: `seg` is `path[segmentStart:segmentEnd]`. -/
def validatePathLoop : List Char → List Char → Option Error
  | [], seg =>
    if seg = ['/'] then some errTrailingSlash
    else if seg = ['/', '.'] ∨ seg = ['/', '.', '.'] then some errDotSegment
    else none
  | c :: rest, seg =>
    if c = '/' then
      if seg = ['/'] then some errEmptySegment
      else if seg = ['/', '.'] ∨ seg = ['/', '.', '.'] then some errDotSegment
      else validatePathLoop rest ['/']
    else if !isValidPathSegmentChar c then some errBadPathSegmentChar
    else validatePathLoop rest (seg ++ [c])

/-- The function `spiffeid.ValidatePath`; `none` is the nil error. -/
def ValidatePath (path : List Char) : Option Error :=
  match path with
  | [] => none
  | c :: _ => if c ≠ '/' then some errNoLeadingSlash else validatePathLoop path []

/-- The scan of `FromString` for the end of the trust domain: the characters read
so far, then the rest of the input from the first slash on. -/
def scanTrustDomain : List Char → List Char → Except Error (List Char × List Char)
  | [], acc => .ok (acc, [])
  | c :: rest, acc =>
    if c = '/' then .ok (acc, c :: rest)
    else if !isValidTrustDomainChar c then .error errBadTrustDomainChar
    else scanTrustDomain rest (acc ++ [c])

/-- The function `spiffeid.FromString`. -/
def FromString (id : String) : Except Error ID :=
  if id = "" then .error errEmpty
  else if !("spiffe://".data.isPrefixOf id.data) then .error errWrongScheme
  else
    match scanTrustDomain (id.data.drop 9) [] with
    | .error e => .error e
    | .ok (td, path) =>
      if td = [] then .error errMissingTrustDomain
      else
        match ValidatePath path with
        | some e => .error e
        | none => .ok ⟨⟨String.mk td⟩, String.mk path⟩

/-- Whether the text holds `:/`, as `strings.Contains(idOrName, ":/")`. -/
def containsSchemeSeparator : List Char → Bool
  | [] => false
  | c :: rest =>
    (c == ':' && rest.head? == some '/') || containsSchemeSeparator rest

/-- The function `spiffeid.TrustDomainFromString`. -/
def TrustDomainFromString (idOrName : String) : Except Error TrustDomain :=
  if idOrName = "" then .error errMissingTrustDomain
  else if containsSchemeSeparator idOrName.data then
    match FromString idOrName with
    | .error e => .error e
    | .ok id => .ok id.TrustDomain
  else if idOrName.data.all isValidTrustDomainChar then .ok ⟨idOrName⟩
  else .error errBadTrustDomainChar

/-- The function `spiffeid.FromPath`. -/
def FromPath (td : TrustDomain) (path : String) : Except Error ID :=
  match ValidatePath path.data with
  | some e => .error e
  | none => if td.IsZero then .error (.new "trust domain is empty") else .ok ⟨td, path⟩

/-- The function `spiffeid.RequireFromPath`: as `FromPath`, panicking on an error. -/
def RequireFromPath (td : TrustDomain) (path : String) : Outcome ID :=
  match FromPath td path with
  | .error _ => .panic "spiffeid.RequireFromPath"
  | .ok id => .ret id

/-- The two parsing entry points of `spiffeid` that `BuildAuthorizer` calls. -/
structure API where
  FromString : String → Except Error ID
  TrustDomainFromString : String → Except Error TrustDomain

end spiffeid

/-- The parsers of go-spiffe. -/
def goSpiffe : spiffeid.API := ⟨spiffeid.FromString, spiffeid.TrustDomainFromString⟩

/-! ## Go standard library: `crypto/rsa`, `crypto/x509`, `time` -/

/-- A byte string, one number below 256 for each byte. -/
abbrev Bytes := List Nat

namespace rsa

/-- The type `rsa.PublicKey`. -/
structure PublicKey where
  N : Nat
  E : Nat
  deriving DecidableEq, Repr

/-- The type `rsa.PrivateKey`, which embeds its public key. -/
structure PrivateKey where
  PublicKey : PublicKey
  D : Nat
  Primes : List Nat
  deriving DecidableEq, Repr

/-- The method `PrivateKey.Public`. -/
def PrivateKey.Public (priv : PrivateKey) : rsa.PublicKey := priv.PublicKey

end rsa

namespace time

/-- An instant, in nanoseconds. -/
abbrev Time := Int

/-- The constant `time.Hour`, a duration in nanoseconds. -/
def Hour : Int := 60 * 60 * 1000000000

/-- The method `Time.Add`. -/
def Add (t : Time) (d : Int) : Time := t + d

end time

namespace pkix

/-- The type `pkix.Name`. -/
structure Name where
  Country : List String := []
  Organization : List String := []
  OrganizationalUnit : List String := []
  Locality : List String := []
  Province : List String := []
  StreetAddress : List String := []
  PostalCode : List String := []
  SerialNumber : String := ""
  CommonName : String := ""
  deriving DecidableEq, Repr

end pkix

namespace x509

/-- The type `x509.KeyUsage`, a bit set. -/
abbrev KeyUsage := Nat

def KeyUsageDigitalSignature : KeyUsage := 1 <<< 0
def KeyUsageContentCommitment : KeyUsage := 1 <<< 1
def KeyUsageKeyEncipherment : KeyUsage := 1 <<< 2
def KeyUsageDataEncipherment : KeyUsage := 1 <<< 3
def KeyUsageKeyAgreement : KeyUsage := 1 <<< 4
def KeyUsageCertSign : KeyUsage := 1 <<< 5
def KeyUsageCRLSign : KeyUsage := 1 <<< 6
def KeyUsageEncipherOnly : KeyUsage := 1 <<< 7
def KeyUsageDecipherOnly : KeyUsage := 1 <<< 8

/-- Every key usage bit that `crypto/x509` defines. -/
def allKeyUsages : List KeyUsage :=
  [KeyUsageDigitalSignature, KeyUsageContentCommitment, KeyUsageKeyEncipherment,
   KeyUsageDataEncipherment, KeyUsageKeyAgreement, KeyUsageCertSign, KeyUsageCRLSign,
   KeyUsageEncipherOnly, KeyUsageDecipherOnly]

/-- Whether the bit set `ku` holds the usage `u`. -/
def KeyUsage.has (ku u : KeyUsage) : Bool := ku &&& u != 0

/-- The type `x509.ExtKeyUsage`. -/
inductive ExtKeyUsage where
  | ExtKeyUsageAny
  | ExtKeyUsageServerAuth
  | ExtKeyUsageClientAuth
  | ExtKeyUsageCodeSigning
  | ExtKeyUsageEmailProtection
  | ExtKeyUsageIPSECEndSystem
  | ExtKeyUsageIPSECTunnel
  | ExtKeyUsageIPSECUser
  | ExtKeyUsageTimeStamping
  | ExtKeyUsageOCSPSigning
  deriving DecidableEq, Repr

/-- The type `x509.Certificate`: the fields the templates of this package set, and
`Raw`, the encoding a parsed certificate was read from. Any other field has its zero
value. -/
structure Certificate where
  Raw : Bytes := []
  SerialNumber : Int := 0
  Subject : pkix.Name := {}
  URIs : List spiffeid.URL := []
  NotBefore : time.Time := 0
  NotAfter : time.Time := 0
  SubjectKeyId : Bytes := []
  KeyUsage : KeyUsage := 0
  ExtKeyUsage : List ExtKeyUsage := []
  BasicConstraintsValid : Bool := false
  IsCA : Bool := false
  PublicKey : Option rsa.PublicKey := none
  deriving DecidableEq, Repr

end x509

/-! ## go-spiffe: `spiffetls/tlsconfig` -/

namespace tlsconfig

/-- The type `tlsconfig.Authorizer`: given the identity a peer presented and the
verified chains, the nil error (`none`) to accept the peer, or an error to reject it. -/
abbrev Authorizer := spiffeid.ID → List (List x509.Certificate) → Option Error

/-- The function `tlsconfig.AuthorizeAny`. -/
def AuthorizeAny : Authorizer := fun _ _ => none

/-- The function `tlsconfig.AuthorizeOneOf`. -/
def AuthorizeOneOf (allowed : List spiffeid.ID) : Authorizer := fun actual _ =>
  if actual ∈ allowed then none
  else some (.new ("unexpected ID \"" ++ actual.String ++ "\""))

/-- The function `tlsconfig.AuthorizeMemberOf`. -/
def AuthorizeMemberOf (allowed : spiffeid.TrustDomain) : Authorizer := fun actual _ =>
  if actual.TrustDomain = allowed then none
  else some (.new ("unexpected trust domain \"" ++ actual.TrustDomain.name ++ "\""))

end tlsconfig

/-! ## `pkg/spiffe/authorizer.go` -/

namespace spiffe

/-- The loop of `BuildAuthorizer` over `allowedSpiffeIDs`, from index `i` on: each
parsed identifier is stored at its index in `spiffeIDs`, and at the first parse error
the loop is left with the wrapped error. -/
def BuildAuthorizer.loop (api : spiffeid.API) :
    List String → Nat → List spiffeid.ID → Except Error (List spiffeid.ID)
  | [], _, spiffeIDs => .ok spiffeIDs
  | rawID :: rest, i, spiffeIDs =>
    match api.FromString rawID with
    | .error err => .error (.wrapf "invalid server spiffeID provided: " err)
    | .ok id => BuildAuthorizer.loop api rest (i + 1) (spiffeIDs.set i id)

/-- BuildAuthorizer returns the correct authorizer based on given constraints. -/
def BuildAuthorizer (api : spiffeid.API) (allowedSpiffeIDs : List String)
    (allowedTrustDomain : String) : Option tlsconfig.Authorizer × Option Error :=
  if allowedSpiffeIDs.length > 0 then
    match BuildAuthorizer.loop api allowedSpiffeIDs 0
        (List.replicate allowedSpiffeIDs.length ⟨⟨""⟩, ""⟩) with
    | .error err => (none, some err)
    | .ok spiffeIDs => (some (tlsconfig.AuthorizeOneOf spiffeIDs), none)
  else if allowedTrustDomain ≠ "" then
    match api.TrustDomainFromString allowedTrustDomain with
    | .error err => (none, some (.wrapf "invalid spiffe trust domain provided: " err))
    | .ok trustDomain => (some (tlsconfig.AuthorizeMemberOf trustDomain), none)
  else (some tlsconfig.AuthorizeAny, none)

/-- Parsing every identifier of a list in order, ending at the first failure with the
error `BuildAuthorizer` reports: what the loop of `BuildAuthorizer` computes. -/
def parseEach (api : spiffeid.API) : List String → Except Error (List spiffeid.ID)
  | [] => .ok []
  | rawID :: rest =>
    match api.FromString rawID with
    | .error err => .error (.wrapf "invalid server spiffeID provided: " err)
    | .ok id =>
      match parseEach api rest with
      | .error err => .error err
      | .ok ids => .ok (id :: ids)

/-- The identifier whose trust domain is `n` letters `a` and whose path is empty. -/
def letters (n : Nat) : spiffeid.ID := ⟨⟨String.mk (List.replicate n 'a')⟩, ""⟩

end spiffe

/-! ## `pkg/tls/tls.go` -/

namespace tls

def SpiffeModeTLS : String := "TLS"
def SpiffeModeMTLS : String := "mTLS"
def SpiffeModeMTLSWebserver : String := "mTLSWebServer"

/-- SpiffeOptions configures SPIFFE for an entry point. -/
structure SpiffeOptions where
  Mode : String
  ClientIDs : List String
  TrustDomain : String
  deriving DecidableEq, Repr

def SpiffeOptions.NeedsClientCertValidation (s : SpiffeOptions) : Bool :=
  s.Mode != "" && s.Mode == SpiffeModeTLS

def SpiffeOptions.NeedsServingSVIDCertificate (s : SpiffeOptions) : Bool :=
  s.Mode != "" && s.Mode != SpiffeModeMTLSWebserver

end tls

/-! ## go-spiffe: `bundle/x509bundle`, `svid/x509svid` -/

/-- The method `Error` of a Go error: its text. -/
def Error.text : Error → String
  | .new text => text
  | .wrapf text cause => text ++ cause.text

namespace x509bundle

/-- The type `x509bundle.Bundle`. -/
structure Bundle where
  trustDomain : spiffeid.TrustDomain
  x509Authorities : List x509.Certificate
  deriving DecidableEq, Repr

/-- The function `x509bundle.New`. -/
def New (trustDomain : spiffeid.TrustDomain) : Bundle := ⟨trustDomain, []⟩

/-- The method `Bundle.TrustDomain`. -/
def Bundle.TrustDomain (b : Bundle) : spiffeid.TrustDomain := b.trustDomain

/-- The method `Bundle.X509Authorities`. -/
def Bundle.X509Authorities (b : Bundle) : List x509.Certificate := b.x509Authorities

/-- The method `Bundle.AddX509Authority`: a certificate already present (same
encoding) is not added again. -/
def Bundle.AddX509Authority (b : Bundle) (x509Authority : x509.Certificate) : Bundle :=
  if b.x509Authorities.any (fun r => r.Raw == x509Authority.Raw) then b
  else ⟨b.trustDomain, b.x509Authorities ++ [x509Authority]⟩

end x509bundle

namespace x509svid

/-- The type `x509svid.SVID`. -/
structure SVID where
  ID : spiffeid.ID
  Certificates : List x509.Certificate
  PrivateKey : rsa.PrivateKey
  deriving DecidableEq, Repr

end x509svid

/-! ## `pkg/spiffe/spiffetest/fake.go` -/

namespace spiffetest

/-- The arguments of one call of `x509.CreateCertificate` (the entropy source apart):
the certificate asked for. -/
structure CertificateRequest where
  template : x509.Certificate
  parent : x509.Certificate
  pub : rsa.PublicKey
  priv : Option rsa.PrivateKey
  deriving DecidableEq, Repr

/-- The world outside the program: `reads` counts how often the entropy source and
the clock have been consulted, `requests` lists the calls of `x509.CreateCertificate`
made so far, oldest first. -/
structure World where
  reads : Nat
  requests : List CertificateRequest
  deriving DecidableEq, Repr

/-- One more consultation of the entropy source or of the clock. -/
def World.read (w : World) : World := ⟨w.reads + 1, w.requests⟩

/-- One more call of `x509.CreateCertificate`, which reads the entropy source. -/
def World.request (w : World) (r : CertificateRequest) : World :=
  ⟨w.reads + 1, w.requests ++ [r]⟩

/-- The library functions `NewPKI` and `GenSVID` call and whose results the program
does not control. Those that read the entropy source or the clock are given the
number of earlier reads. -/
structure Env where
  /-- The call `rsa.GenerateKey(rand.Reader, bits)`. -/
  GenerateKey : Nat → Nat → Except Error rsa.PrivateKey
  /-- The call `time.Now()`. -/
  Now : Nat → time.Time
  /-- The call `x509.CreateCertificate(rand.Reader, template, parent, pub, priv)`. -/
  CreateCertificate : Nat → CertificateRequest → Except Error Bytes
  /-- The call `x509.ParseCertificates(der)`. -/
  ParseCertificates : Bytes → Except Error (List x509.Certificate)
  /-- The call `x509.MarshalPKCS8PrivateKey(key)`. -/
  MarshalPKCS8PrivateKey : rsa.PrivateKey → Except Error Bytes
  /-- The call `x509svid.ParseRaw(certBytes, keyBytes)`. -/
  ParseRawSVID : Bytes → Bytes → Except Error x509svid.SVID

/-- The function `x509bundle.ParseRaw`. -/
def Env.ParseRawBundle (env : Env) (trustDomain : spiffeid.TrustDomain) (b : Bytes) :
    Except Error x509bundle.Bundle :=
  if b.length = 0 then .ok (x509bundle.New trustDomain)
  else
    match env.ParseCertificates b with
    | .error err => .error (.new ("x509bundle: cannot parse certificate: " ++ err.text))
    | .ok certs => .ok (certs.foldl x509bundle.Bundle.AddX509Authority (x509bundle.New trustDomain))

/-- PKI simulates a SPIFFE aware PKI and allows generating multiple valid SVIDs.
Both fields are pointers: `none` is nil. -/
structure PKI where
  caPrivateKey : Option rsa.PrivateKey
  bundle : Option x509bundle.Bundle
  deriving DecidableEq, Repr

/-- The template `NewPKI` fills in, given the CA identifier, the two clock readings
and the generated key. -/
def caTemplate (caID : spiffeid.ID) (notBefore now : time.Time)
    (caPrivateKey : rsa.PrivateKey) : x509.Certificate :=
  { SerialNumber := 2000
    Subject := { Organization := ["spiffe"] }
    URIs := [caID.URL]
    NotBefore := notBefore
    NotAfter := time.Add now time.Hour
    SubjectKeyId := [99, 97]
    KeyUsage := x509.KeyUsageCertSign ||| x509.KeyUsageCRLSign
    BasicConstraintsValid := true
    IsCA := true
    PublicKey := some caPrivateKey.Public }

def NewPKI (env : Env) (trustDomain : spiffeid.TrustDomain) (w : World) :
    Outcome (Option PKI × Option Error) × World :=
  match env.GenerateKey w.reads 2048 with
  | .error err => (.ret (none, some err), w.read)
  | .ok caPrivateKey =>
    let w1 := w.read
    let err : Option Error := none
    match spiffeid.RequireFromPath trustDomain "/ca" with
    | .panic reason => (.panic reason, w1)
    | .ret caID =>
      let caTemplate := caTemplate caID (env.Now w1.reads) (env.Now w1.read.reads) caPrivateKey
      let w2 := w1.read.read
      match err with
      | some err => (.ret (none, some err), w2)
      | none =>
        let req : CertificateRequest :=
          ⟨caTemplate, caTemplate, caPrivateKey.Public, some caPrivateKey⟩
        match env.CreateCertificate w2.reads req with
        | .error err => (.ret (none, some err), w2.request req)
        | .ok caCertDER =>
          match env.ParseRawBundle trustDomain caCertDER with
          | .error err => (.ret (none, some err), w2.request req)
          | .ok bundle => (.ret (some ⟨some caPrivateKey, some bundle⟩, none), w2.request req)

def PKI.Bundle (f : PKI) : Option x509bundle.Bundle := f.bundle

/-- The template `GenSVID` fills in, given the identifier, the two clock readings and
the generated key. -/
def svidTemplate (id : spiffeid.ID) (notBefore now : time.Time)
    (privateKey : rsa.PrivateKey) : x509.Certificate :=
  { SerialNumber := 200001
    URIs := [id.URL]
    NotBefore := notBefore
    NotAfter := time.Add now time.Hour
    SubjectKeyId := [115, 118, 105, 100]
    KeyUsage := x509.KeyUsageKeyEncipherment ||| x509.KeyUsageKeyAgreement |||
      x509.KeyUsageDigitalSignature
    ExtKeyUsage := [.ExtKeyUsageServerAuth, .ExtKeyUsageClientAuth]
    BasicConstraintsValid := true
    PublicKey := some privateKey.PublicKey }

def PKI.GenSVID (env : Env) (f : PKI) (id : spiffeid.ID) (w : World) :
    Outcome (Option x509svid.SVID × Option Error) × World :=
  match env.GenerateKey w.reads 2048 with
  | .error err => (.ret (none, some err), w.read)
  | .ok privateKey =>
    let w1 := w.read
    let template := svidTemplate id (env.Now w1.reads) (env.Now w1.read.reads) privateKey
    let w2 := w1.read.read
    match f.bundle with
    | none => (.panic "invalid memory address or nil pointer dereference", w2)
    | some bundle =>
      match bundle.X509Authorities with
      | [] => (.panic "index out of range [0] with length 0", w2)
      | parent :: _ =>
        let req : CertificateRequest := ⟨template, parent, privateKey.Public, f.caPrivateKey⟩
        match env.CreateCertificate w2.reads req with
        | .error err => (.ret (none, some err), w2.request req)
        | .ok certDER =>
          match env.MarshalPKCS8PrivateKey privateKey with
          | .error err => (.ret (none, some err), w2.request req)
          | .ok keyPKCS8 =>
            match env.ParseRawSVID certDER keyPKCS8 with
            | .error err => (.ret (none, some err), w2.request req)
            | .ok svid => (.ret (some svid, none), w2.request req)

/-- What `crypto/x509` guarantees of an encoding it produced: it is not empty and it
parses back to exactly one certificate, whose `Raw` is that encoding. -/
def Env.ParsesCreated (env : Env) : Prop :=
  ∀ t req der, env.CreateCertificate t req = .ok der →
    der ≠ [] ∧ ∃ c, env.ParseCertificates der = .ok [c] ∧ c.Raw = der

/-- A library whose calls all succeed: the key generated at read `t` has modulus
`2 * t + 15`, the clock at read `t` shows `t` seconds, an encoding lists the serial
number, the read it was made at and the modulus of the certified key, and every SVID
parsed is one of the workload of `example.org`. -/
def fixedEnv : Env where
  GenerateKey := fun t _ => .ok ⟨⟨2 * t + 15, 65537⟩, t + 1, [3, 5]⟩
  Now := fun t => 1000000000 * t
  CreateCertificate := fun t req => .ok [req.template.SerialNumber.toNat, t, req.pub.N]
  ParseCertificates := fun der =>
    .ok [{ Raw := der, SerialNumber := der.headD 0, PublicKey := some ⟨der.getD 2 0, 65537⟩ }]
  MarshalPKCS8PrivateKey := fun key => .ok [key.PublicKey.N, key.D]
  ParseRawSVID := fun certBytes keyBytes =>
    .ok ⟨⟨⟨"example.org"⟩, "/workload"⟩, [{ Raw := certBytes }],
      ⟨⟨keyBytes.headD 0, 65537⟩, keyBytes.getD 1 0, []⟩⟩

/-- The PKI that `NewPKI` returns for `example.org` with the library `fixedEnv`, from
a world without earlier reads. -/
def examplePKI : PKI :=
  ⟨some ⟨⟨15, 65537⟩, 1, [3, 5]⟩,
    some ⟨⟨"example.org"⟩,
      [{ Raw := [2000, 3, 15], SerialNumber := 2000, PublicKey := some ⟨15, 65537⟩ }]⟩⟩

end spiffetest

/-! ## Results on `BuildAuthorizer` -/

namespace spiffe

theorem take_succ_set {α : Type} (x : α) :
    ∀ (l : List α) (i : Nat), i < l.length → (l.set i x).take (i + 1) = l.take i ++ [x]
  | [], i, h => by simp at h
  | _ :: l, 0, _ => by simp
  | y :: l, i + 1, h => by
    have h2 : i < l.length := by simpa using h
    simp [take_succ_set x l i h2]

theorem loop_eq_parseEach (api : spiffeid.API) :
    ∀ (rest : List String) (i : Nat) (spiffeIDs : List spiffeid.ID),
      spiffeIDs.length = i + rest.length →
      BuildAuthorizer.loop api rest i spiffeIDs =
        match parseEach api rest with
        | .error err => .error err
        | .ok ids => .ok (spiffeIDs.take i ++ ids)
  | [], i, spiffeIDs, h => by
    have h2 : spiffeIDs.length ≤ i := by simp at h; omega
    simp [BuildAuthorizer.loop, parseEach, List.take_of_length_le h2]
  | rawID :: rest, i, spiffeIDs, h => by
    have hi : i < spiffeIDs.length := by simp at h; omega
    unfold BuildAuthorizer.loop parseEach
    cases hp : api.FromString rawID with
    | error err => rfl
    | ok id =>
      have hlen : (spiffeIDs.set i id).length = (i + 1) + rest.length := by
        simp at h ⊢; omega
      simp only []
      rw [loop_eq_parseEach api rest (i + 1) (spiffeIDs.set i id) hlen]
      cases parseEach api rest with
      | error err => rfl
      | ok ids => simp [take_succ_set id spiffeIDs i hi]

theorem BuildAuthorizer_of_nonempty (api : spiffeid.API) (ids : List String) (td : String)
    (h : ids ≠ []) :
    BuildAuthorizer api ids td =
      match parseEach api ids with
      | .error err => (none, some err)
      | .ok spiffeIDs => (some (tlsconfig.AuthorizeOneOf spiffeIDs), none) := by
  have hpos : ids.length > 0 := List.length_pos.mpr h
  unfold BuildAuthorizer
  rw [if_pos hpos, loop_eq_parseEach api ids 0 _ (by simp)]
  cases parseEach api ids <;> simp

theorem parseEach_ok_of_forall (api : spiffeid.API) :
    ∀ (ids : List String), (∀ s ∈ ids, ∃ i, api.FromString s = .ok i) →
      ∃ parsed, parseEach api ids = .ok parsed
        ∧ ∀ x, x ∈ parsed ↔ ∃ s ∈ ids, api.FromString s = .ok x
  | [], _ => ⟨[], rfl, by simp⟩
  | rawID :: rest, h => by
    obtain ⟨i, hi⟩ := h rawID (by simp)
    obtain ⟨ps, hps, hmem⟩ := parseEach_ok_of_forall api rest
      (fun s hs => h s (List.mem_cons_of_mem _ hs))
    refine ⟨i :: ps, by simp [parseEach, hi, hps], ?_⟩
    intro x
    simp only [List.mem_cons, hmem, exists_eq_or_imp, hi, Except.ok.injEq]
    constructor
    · rintro (rfl | h2)
      · exact Or.inl rfl
      · exact Or.inr h2
    · rintro (rfl | h2)
      · exact Or.inl rfl
      · exact Or.inr h2

theorem parseEach_error_iff (api : spiffeid.API) :
    ∀ (ids : List String) (err : Error),
      parseEach api ids = .error err ↔
        ∃ pre s post cause, ids = pre ++ s :: post
          ∧ (∀ p ∈ pre, ∃ i, api.FromString p = .ok i)
          ∧ api.FromString s = .error cause
          ∧ err = .wrapf "invalid server spiffeID provided: " cause
  | [], err => by simp [parseEach]
  | rawID :: rest, err => by
    unfold parseEach
    cases hp : api.FromString rawID with
    | error cause =>
      constructor
      · intro h
        exact ⟨[], rawID, rest, cause, rfl, by simp, hp, (Except.error.inj h).symm⟩
      · rintro ⟨pre, s, post, c, hsplit, hpre, hs, rfl⟩
        cases pre with
        | nil =>
          simp only [List.nil_append, List.cons.injEq] at hsplit
          obtain ⟨rfl, -⟩ := hsplit
          rw [hp] at hs
          rw [Except.error.inj hs]
        | cons q qs =>
          simp only [List.cons_append, List.cons.injEq] at hsplit
          obtain ⟨rfl, -⟩ := hsplit
          obtain ⟨i, hi⟩ := hpre rawID (by simp)
          rw [hp] at hi
          cases hi
    | ok id =>
      have ih := parseEach_error_iff api rest err
      cases hr : parseEach api rest with
      | error e2 =>
        rw [hr] at ih
        simp only []
        constructor
        · intro h
          obtain ⟨pre, s, post, c, hsplit, hpre, hs, he⟩ := ih.mp h
          refine ⟨rawID :: pre, s, post, c, by simp [hsplit], ?_, hs, he⟩
          intro q hq
          rcases List.mem_cons.mp hq with rfl | hq
          · exact ⟨id, hp⟩
          · exact hpre q hq
        · rintro ⟨pre, s, post, c, hsplit, hpre, hs, he⟩
          cases pre with
          | nil =>
            simp only [List.nil_append, List.cons.injEq] at hsplit
            obtain ⟨rfl, -⟩ := hsplit
            rw [hp] at hs
            cases hs
          | cons q qs =>
            simp only [List.cons_append, List.cons.injEq] at hsplit
            obtain ⟨rfl, rfl⟩ := hsplit
            exact ih.mpr ⟨qs, s, post, c, rfl,
              fun p hp2 => hpre p (List.mem_cons_of_mem _ hp2), hs, he⟩
      | ok ps =>
        rw [hr] at ih
        simp only [false_iff, reduceCtorEq] at ih ⊢
        rintro ⟨pre, s, post, c, hsplit, hpre, hs, he⟩
        cases pre with
        | nil =>
          simp only [List.nil_append, List.cons.injEq] at hsplit
          obtain ⟨rfl, -⟩ := hsplit
          rw [hp] at hs
          cases hs
        | cons q qs =>
          simp only [List.cons_append, List.cons.injEq] at hsplit
          obtain ⟨rfl, rfl⟩ := hsplit
          exact ih ⟨qs, s, post, c, rfl,
            fun p hp2 => hpre p (List.mem_cons_of_mem _ hp2), hs, he⟩

theorem parseEach_cases (api : spiffeid.API) (ids : List String) :
    (∃ parsed, parseEach api ids = .ok parsed ∧ ∀ s ∈ ids, ∃ i, api.FromString s = .ok i)
      ∨ (∃ err, parseEach api ids = .error err ∧ ∃ s ∈ ids, ∃ e, api.FromString s = .error e) := by
  cases h : parseEach api ids with
  | error err =>
    right
    obtain ⟨pre, s, post, c, hsplit, -, hs, -⟩ := (parseEach_error_iff api ids err).mp h
    exact ⟨err, rfl, s, by simp [hsplit], c, hs⟩
  | ok parsed =>
    left
    refine ⟨parsed, rfl, ?_⟩
    intro s hs
    cases hp : api.FromString s with
    | ok i => exact ⟨i, rfl⟩
    | error e =>
      exfalso
      obtain ⟨pre, post, hsplit⟩ := List.append_of_mem hs
      have key : ∀ (pre : List String), ∃ err, parseEach api (pre ++ s :: post) = .error err := by
        intro pre
        induction pre with
        | nil => exact ⟨.wrapf "invalid server spiffeID provided: " e, by simp [parseEach, hp]⟩
        | cons q qs ih =>
          obtain ⟨err, he⟩ := ih
          cases hq : api.FromString q with
          | error e2 =>
            exact ⟨.wrapf "invalid server spiffeID provided: " e2, by simp [parseEach, hq]⟩
          | ok i => exact ⟨err, by simp [parseEach, hq, he]⟩
      obtain ⟨err, he⟩ := key pre
      rw [← hsplit, h] at he
      cases he

theorem scanTrustDomain_letters :
    ∀ (n : Nat) (acc : List Char),
      spiffeid.scanTrustDomain (List.replicate n 'a') acc = .ok (acc ++ List.replicate n 'a', [])
  | 0, acc => by simp [spiffeid.scanTrustDomain]
  | n + 1, acc => by
    have hv : spiffeid.isValidTrustDomainChar 'a' = true := by decide
    have hne : ¬ ('a' = '/') := by decide
    rw [List.replicate_succ, spiffeid.scanTrustDomain, if_neg hne, hv]
    simp only [Bool.not_true, Bool.false_eq_true, if_false]
    rw [scanTrustDomain_letters n (acc ++ ['a'])]
    simp

theorem FromString_letters (n : Nat) :
    spiffeid.FromString (letters (n + 1)).String = .ok (letters (n + 1)) := by
  have hdata : (letters (n + 1)).String.data = "spiffe://".data ++ List.replicate (n + 1) 'a' := by
    simp [letters, spiffeid.ID.String, spiffeid.ID.IsZero, List.replicate_succ, String.ext_iff]
  have hne : (letters (n + 1)).String ≠ "" := by
    intro h
    have h2 := congrArg String.data h
    rw [hdata] at h2
    simp at h2
  have hpre : ("spiffe://".data.isPrefixOf (letters (n + 1)).String.data) = true := by
    rw [hdata]
    simp
  have hdrop : (letters (n + 1)).String.data.drop 9 = List.replicate (n + 1) 'a' := by
    rw [hdata]
    rfl
  unfold spiffeid.FromString
  rw [if_neg hne, hpre, hdrop, scanTrustDomain_letters]
  simp [spiffeid.ValidatePath, letters, List.replicate_succ]

theorem exists_letters_not_mem (l : List spiffeid.ID) : ∃ n, letters (n + 1) ∉ l := by
  have bound : ∀ (l : List spiffeid.ID), ∃ n, ∀ x ∈ l, x.td.name.length < n + 1 := by
    intro l
    induction l with
    | nil => exact ⟨0, by simp⟩
    | cons y ys ih =>
      obtain ⟨n, hn⟩ := ih
      refine ⟨max n y.td.name.length, ?_⟩
      intro x hx
      rcases List.mem_cons.mp hx with rfl | hx
      · omega
      · have := hn x hx
        omega
  obtain ⟨n, hn⟩ := bound l
  refine ⟨n, fun hmem => ?_⟩
  have := hn _ hmem
  simp [letters, String.length] at this

/-- C1. For every non-empty list of identifier strings that all parse and for every
trust-domain string, `BuildAuthorizer` returns no error and an authorizer that accepts
a presented identity exactly when it is the parse of some element of the list; so an
identity of the given trust domain that is not in the list is rejected. -/
theorem BuildAuthorizer_allow_list (api : spiffeid.API) (ids : List String) (td : String)
    (hne : ids ≠ []) (hwf : ∀ s ∈ ids, ∃ i, api.FromString s = .ok i) :
    (BuildAuthorizer api ids td).2 = none
      ∧ ∃ a, (BuildAuthorizer api ids td).1 = some a
        ∧ (∀ x chains, a x chains = none ↔ ∃ s ∈ ids, api.FromString s = .ok x)
        ∧ (∀ x chains t, api.TrustDomainFromString td = .ok t → x.TrustDomain = t →
            (¬ ∃ s ∈ ids, api.FromString s = .ok x) → a x chains ≠ none) := by
  obtain ⟨parsed, hparsed, hmem⟩ := parseEach_ok_of_forall api ids hwf
  have hacc : ∀ x chains, tlsconfig.AuthorizeOneOf parsed x chains = none
      ↔ ∃ s ∈ ids, api.FromString s = .ok x := by
    intro x chains
    rw [← hmem x]
    unfold tlsconfig.AuthorizeOneOf
    by_cases hx : x ∈ parsed <;> simp [hx]
  rw [BuildAuthorizer_of_nonempty api ids td hne, hparsed]
  refine ⟨rfl, _, rfl, hacc, ?_⟩
  intro x chains t _ _ hnot hacc2
  exact hnot ((hacc x chains).mp hacc2)

/-- C2. For the empty identifier list and a non-empty trust-domain string that parses,
`BuildAuthorizer` returns no error and an authorizer that accepts a presented identity
exactly when its trust domain is the parsed one, whatever its path. -/
theorem BuildAuthorizer_trust_domain (api : spiffeid.API) (td : String)
    (t : spiffeid.TrustDomain) (hne : td ≠ "") (hwf : api.TrustDomainFromString td = .ok t) :
    (BuildAuthorizer api [] td).2 = none
      ∧ ∃ a, (BuildAuthorizer api [] td).1 = some a
        ∧ (∀ x chains, a x chains = none ↔ x.TrustDomain = t)
        ∧ (∀ path chains, a ⟨t, path⟩ chains = none) := by
  have hacc : ∀ x chains, tlsconfig.AuthorizeMemberOf t x chains = none ↔ x.TrustDomain = t := by
    intro x chains
    unfold tlsconfig.AuthorizeMemberOf
    by_cases hx : x.TrustDomain = t <;> simp [hx]
  have hb : BuildAuthorizer api [] td = (some (tlsconfig.AuthorizeMemberOf t), none) := by
    simp [BuildAuthorizer, hne, hwf]
  rw [hb]
  exact ⟨rfl, _, rfl, hacc, fun path chains => (hacc ⟨t, path⟩ chains).mpr rfl⟩

/-- C3. `BuildAuthorizer` returns an error exactly when the list is non-empty and some
element fails to parse, or the list is empty and the trust-domain string is non-empty
and fails to parse; with an error the authorizer returned is nil; and for a non-empty
list the error wraps the parse error of the first element, in list order, that fails. -/
theorem BuildAuthorizer_error (api : spiffeid.API) (ids : List String) (td : String) :
    ((BuildAuthorizer api ids td).2 ≠ none ↔
        (ids ≠ [] ∧ ∃ s ∈ ids, ∃ e, api.FromString s = .error e)
          ∨ (ids = [] ∧ td ≠ "" ∧ ∃ e, api.TrustDomainFromString td = .error e))
      ∧ ((BuildAuthorizer api ids td).2 ≠ none → (BuildAuthorizer api ids td).1 = none)
      ∧ ((BuildAuthorizer api ids td).2 = none → (BuildAuthorizer api ids td).1 ≠ none)
      ∧ (ids ≠ [] → ∀ err, (BuildAuthorizer api ids td).2 = some err →
          ∃ pre s post cause, ids = pre ++ s :: post
            ∧ (∀ p ∈ pre, ∃ i, api.FromString p = .ok i)
            ∧ api.FromString s = .error cause
            ∧ err = .wrapf "invalid server spiffeID provided: " cause) := by
  by_cases hne : ids = []
  · subst hne
    by_cases htd : td = ""
    · subst htd
      simp [BuildAuthorizer]
    · cases hp : api.TrustDomainFromString td with
      | error e => simp [BuildAuthorizer, htd, hp]
      | ok t => simp [BuildAuthorizer, htd, hp]
  · rw [BuildAuthorizer_of_nonempty api ids td hne]
    rcases parseEach_cases api ids with ⟨parsed, hparsed, hall⟩ | ⟨err, herr, hsome⟩
    · rw [hparsed]
      refine ⟨?_, by simp, by simp, by simp⟩
      simp only [ne_eq, not_true_eq_false, false_iff, not_or, not_and]
      refine ⟨fun _ => ?_, fun h => absurd h hne⟩
      rintro ⟨s, hs, e, he⟩
      obtain ⟨i, hi⟩ := hall s hs
      rw [hi] at he
      cases he
    · rw [herr]
      refine ⟨?_, by simp, by simp, ?_⟩
      · simp only [ne_eq, reduceCtorEq, not_false_eq_true, true_iff]
        exact Or.inl ⟨hne, hsome⟩
      · intro _ err2 h2
        have : err2 = err := by simpa using h2.symm
        subst this
        exact (parseEach_error_iff api ids err2).mp herr

/-- C4. With the empty identifier list and the empty trust-domain string,
`BuildAuthorizer` returns no error and an authorizer that accepts every presented
identity; and when either input is non-empty, whatever authorizer it returns rejects
some well-formed identity, so the accept-everything authorizer is returned in the
first case only. -/
theorem BuildAuthorizer_allow_any (api : spiffeid.API) (ids : List String) (td : String) :
    ((ids = [] ∧ td = "") →
        (BuildAuthorizer api ids td).2 = none
          ∧ ∃ a, (BuildAuthorizer api ids td).1 = some a ∧ ∀ x chains, a x chains = none)
      ∧ (¬ (ids = [] ∧ td = "") → ∀ a, (BuildAuthorizer api ids td).1 = some a →
          ∃ x, spiffeid.FromString x.String = .ok x ∧ ∀ chains, a x chains ≠ none) := by
  constructor
  · rintro ⟨rfl, rfl⟩
    exact ⟨by simp [BuildAuthorizer], tlsconfig.AuthorizeAny, by simp [BuildAuthorizer],
      fun _ _ => rfl⟩
  · intro hnot a ha
    by_cases hne : ids = []
    · subst hne
      have htd : td ≠ "" := fun h => hnot ⟨rfl, h⟩
      cases hp : api.TrustDomainFromString td with
      | error e => simp [BuildAuthorizer, htd, hp] at ha
      | ok t =>
        have hb : a = tlsconfig.AuthorizeMemberOf t := by
          simpa [BuildAuthorizer, htd, hp] using ha.symm
        subst hb
        by_cases ht : t = ⟨"a"⟩
        · refine ⟨letters 2, FromString_letters 1, fun chains => ?_⟩
          have : (letters 2).TrustDomain ≠ t := by
            rw [ht]
            decide
          simp [tlsconfig.AuthorizeMemberOf, this]
        · refine ⟨letters 1, FromString_letters 0, fun chains => ?_⟩
          have : (letters 1).TrustDomain ≠ t := by
            intro h
            exact ht h.symm
          simp [tlsconfig.AuthorizeMemberOf, this]
    · rw [BuildAuthorizer_of_nonempty api ids td hne] at ha
      cases hp : parseEach api ids with
      | error e => simp [hp] at ha
      | ok parsed =>
        have hb : a = tlsconfig.AuthorizeOneOf parsed := by
          simpa [hp] using ha.symm
        subst hb
        obtain ⟨n, hn⟩ := exists_letters_not_mem parsed
        exact ⟨letters (n + 1), FromString_letters n, fun chains => by
          simp [tlsconfig.AuthorizeOneOf, hn]⟩

/-- An instance of C1, with the parsers of go-spiffe: the list of two identifiers of
`example.org` and the trust domain `example.org`. -/
theorem BuildAuthorizer_allow_list_witness :
    (BuildAuthorizer goSpiffe ["spiffe://example.org/a", "spiffe://example.org/b"]
        "example.org").2 = none
      ∧ ∃ a, (BuildAuthorizer goSpiffe ["spiffe://example.org/a", "spiffe://example.org/b"]
          "example.org").1 = some a
        ∧ (∀ x chains, a x chains = none ↔
            ∃ s ∈ ["spiffe://example.org/a", "spiffe://example.org/b"],
              goSpiffe.FromString s = .ok x)
        ∧ (∀ x chains t, goSpiffe.TrustDomainFromString "example.org" = .ok t →
            x.TrustDomain = t →
            (¬ ∃ s ∈ ["spiffe://example.org/a", "spiffe://example.org/b"],
              goSpiffe.FromString s = .ok x) → a x chains ≠ none) :=
  BuildAuthorizer_allow_list goSpiffe ["spiffe://example.org/a", "spiffe://example.org/b"]
    "example.org" (by decide)
    (fun s hs => by
      simp only [List.mem_cons, List.mem_singleton, List.not_mem_nil, or_false] at hs
      rcases hs with rfl | rfl
      · exact ⟨⟨⟨"example.org"⟩, "/a"⟩, by decide⟩
      · exact ⟨⟨⟨"example.org"⟩, "/b"⟩, by decide⟩)

/-- An instance of C2, with the parsers of go-spiffe: the trust domain `example.org`. -/
theorem BuildAuthorizer_trust_domain_witness :
    (BuildAuthorizer goSpiffe [] "example.org").2 = none
      ∧ ∃ a, (BuildAuthorizer goSpiffe [] "example.org").1 = some a
        ∧ (∀ x chains, a x chains = none ↔ x.TrustDomain = ⟨"example.org"⟩)
        ∧ (∀ path chains, a ⟨⟨"example.org"⟩, path⟩ chains = none) :=
  BuildAuthorizer_trust_domain goSpiffe "example.org" ⟨"example.org"⟩ (by decide) (by decide)

/-- An instance of C3, with the parsers of go-spiffe: of three strings the second and
the third do not parse, and the error reported wraps the parse error of the second. -/
theorem BuildAuthorizer_error_witness :
    ∃ pre s post cause,
      ["spiffe://example.org/a", "example.org/b", "spiffe://"] = pre ++ s :: post
        ∧ (∀ p ∈ pre, ∃ i, goSpiffe.FromString p = .ok i)
        ∧ goSpiffe.FromString s = .error cause
        ∧ Error.wrapf "invalid server spiffeID provided: " spiffeid.errWrongScheme
          = .wrapf "invalid server spiffeID provided: " cause :=
  (BuildAuthorizer_error goSpiffe ["spiffe://example.org/a", "example.org/b", "spiffe://"]
    "example.org").2.2.2 (by decide)
    (.wrapf "invalid server spiffeID provided: " spiffeid.errWrongScheme) (by decide)

/-- An instance of C4, with the parsers of go-spiffe: with both inputs empty every
identity is accepted, and with the trust domain `example.org` some well-formed
identity is rejected. -/
theorem BuildAuthorizer_allow_any_witness :
    ((BuildAuthorizer goSpiffe [] "").2 = none
        ∧ ∃ a, (BuildAuthorizer goSpiffe [] "").1 = some a ∧ ∀ x chains, a x chains = none)
      ∧ ∃ x, spiffeid.FromString x.String = .ok x
        ∧ ∀ chains, tlsconfig.AuthorizeMemberOf ⟨"example.org"⟩ x chains ≠ none :=
  ⟨(BuildAuthorizer_allow_any goSpiffe [] "").1 ⟨rfl, rfl⟩,
    (BuildAuthorizer_allow_any goSpiffe [] "example.org").2 (by decide)
      (tlsconfig.AuthorizeMemberOf ⟨"example.org"⟩) rfl⟩

end spiffe

/-! ## Results on the mode predicates of `SpiffeOptions` -/

namespace tls

/-- C5. `NeedsClientCertValidation` is true exactly when the mode is `TLS`: it is
false for the empty mode, for `mTLS` and for `mTLSWebServer`, and it depends neither
on `ClientIDs` nor on `TrustDomain`. -/
theorem NeedsClientCertValidation_iff (s : SpiffeOptions) :
    (s.NeedsClientCertValidation = true ↔ s.Mode = "TLS")
      ∧ (∀ ids td, SpiffeOptions.NeedsClientCertValidation ⟨"", ids, td⟩ = false
          ∧ SpiffeOptions.NeedsClientCertValidation ⟨"mTLS", ids, td⟩ = false
          ∧ SpiffeOptions.NeedsClientCertValidation ⟨"mTLSWebServer", ids, td⟩ = false)
      ∧ (∀ ids td, SpiffeOptions.NeedsClientCertValidation ⟨s.Mode, ids, td⟩
          = s.NeedsClientCertValidation) := by
  refine ⟨?_, fun ids td => ⟨rfl, rfl, rfl⟩, fun _ _ => rfl⟩
  simp only [SpiffeOptions.NeedsClientCertValidation, SpiffeModeTLS, Bool.and_eq_true,
    bne_iff_ne, ne_eq, beq_iff_eq]
  constructor
  · exact fun h => h.2
  · intro h
    rw [h]
    exact ⟨by decide, rfl⟩

/-- C6. What `NeedsClientCertValidation` returns for the three named modes: false for
`mTLS` and for `mTLSWebServer`, the two modes documented as requiring a SPIFFE client
certificate, and true for `TLS`, the mode documented as requiring none. -/
theorem NeedsClientCertValidation_documented_modes :
    SpiffeOptions.NeedsClientCertValidation ⟨SpiffeModeMTLS, [], ""⟩ = false
      ∧ SpiffeOptions.NeedsClientCertValidation ⟨SpiffeModeMTLSWebserver, [], ""⟩ = false
      ∧ SpiffeOptions.NeedsClientCertValidation ⟨SpiffeModeTLS, [], ""⟩ = true := by
  decide

/-- C7, as stated, fails: for the mode string `MTLS`, which is neither `TLS` nor
`mTLS`, `NeedsServingSVIDCertificate` is true. -/
theorem NeedsServingSVIDCertificate_not_only_documented :
    ¬ (∀ s : SpiffeOptions,
        (s.NeedsServingSVIDCertificate = true ↔ (s.Mode ≠ "" ∧ s.Mode ≠ "mTLSWebServer"))
          ∧ (s.NeedsServingSVIDCertificate = true ↔ (s.Mode = "TLS" ∨ s.Mode = "mTLS"))) := by
  intro h
  have h2 := ((h ⟨"MTLS", [], ""⟩).2).mp (by decide)
  revert h2
  decide

/-- C7, amended. `NeedsServingSVIDCertificate` is true exactly when the mode is neither
empty nor `mTLSWebServer`; among the four documented modes it is true for `TLS` and
`mTLS` only, and it is true for every mode string outside these four. -/
theorem NeedsServingSVIDCertificate_iff (s : SpiffeOptions) :
    (s.NeedsServingSVIDCertificate = true ↔ (s.Mode ≠ "" ∧ s.Mode ≠ "mTLSWebServer"))
      ∧ (s.Mode ∈ ["", "TLS", "mTLS", "mTLSWebServer"] →
          (s.NeedsServingSVIDCertificate = true ↔ (s.Mode = "TLS" ∨ s.Mode = "mTLS")))
      ∧ (s.Mode ∉ ["", "TLS", "mTLS", "mTLSWebServer"] →
          s.NeedsServingSVIDCertificate = true) := by
  have key : s.NeedsServingSVIDCertificate = true ↔ (s.Mode ≠ "" ∧ s.Mode ≠ "mTLSWebServer") := by
    simp [SpiffeOptions.NeedsServingSVIDCertificate, SpiffeModeMTLSWebserver]
  refine ⟨key, ?_, ?_⟩
  · intro hmem
    rw [key]
    simp only [List.mem_cons, List.mem_singleton, List.not_mem_nil, or_false] at hmem
    rcases hmem with h | h | h | h <;> rw [h] <;> decide
  · intro hnot
    rw [key]
    simp only [List.mem_cons, List.mem_singleton, List.not_mem_nil, or_false, not_or] at hnot
    exact ⟨hnot.1, hnot.2.2.2⟩

/-- An instance of the amended C7: the mode `mTLS` is one of the four documented modes
and `MTLS` is not, and the predicate is true for both. -/
theorem NeedsServingSVIDCertificate_iff_witness :
    (SpiffeOptions.NeedsServingSVIDCertificate ⟨"mTLS", [], ""⟩ = true
        ↔ ("mTLS" = "TLS" ∨ "mTLS" = "mTLS"))
      ∧ SpiffeOptions.NeedsServingSVIDCertificate ⟨"MTLS", ["spiffe://example.org/a"], ""⟩ = true :=
  ⟨(NeedsServingSVIDCertificate_iff ⟨"mTLS", [], ""⟩).2.1 (by decide),
    (NeedsServingSVIDCertificate_iff ⟨"MTLS", ["spiffe://example.org/a"], ""⟩).2.2 (by decide)⟩

end tls

/-! ## Results on the test PKI -/

namespace spiffetest

theorem RequireFromPath_ca (td : spiffeid.TrustDomain) :
    spiffeid.RequireFromPath td "/ca" =
      if td.IsZero then .panic "spiffeid.RequireFromPath" else .ret ⟨td, "/ca"⟩ := by
  have hv : spiffeid.ValidatePath "/ca".data = none := by decide
  unfold spiffeid.RequireFromPath spiffeid.FromPath
  rw [hv]
  by_cases hz : td.IsZero = true <;> simp [hz]

theorem ParseRawBundle_of_parsesCreated (env : Env) (h : env.ParsesCreated)
    (td : spiffeid.TrustDomain) (t : Nat) (req : CertificateRequest) (der : Bytes)
    (hder : env.CreateCertificate t req = .ok der) :
    ∃ c, c.Raw = der ∧ env.ParseCertificates der = .ok [c]
      ∧ env.ParseRawBundle td der = .ok ⟨td, [c]⟩ := by
  obtain ⟨hne, c, hc, hraw⟩ := h t req der hder
  refine ⟨c, hraw, hc, ?_⟩
  have hlen : ¬ der.length = 0 := by
    intro h0
    exact hne (List.length_eq_zero.mp h0)
  simp [Env.ParseRawBundle, hlen, hc, x509bundle.New, x509bundle.Bundle.AddX509Authority]

theorem NewPKI_success (env : Env) (td : spiffeid.TrustDomain) (w w2 : World) (p : PKI)
    (h : NewPKI env td w = (.ret (some p, none), w2)) :
    ∃ caKey der bundle,
      env.GenerateKey w.reads 2048 = .ok caKey
        ∧ td.IsZero = false
        ∧ env.CreateCertificate (w.reads + 3)
            ⟨caTemplate ⟨td, "/ca"⟩ (env.Now (w.reads + 1)) (env.Now (w.reads + 2)) caKey,
              caTemplate ⟨td, "/ca"⟩ (env.Now (w.reads + 1)) (env.Now (w.reads + 2)) caKey,
              caKey.Public, some caKey⟩ = .ok der
        ∧ env.ParseRawBundle td der = .ok bundle
        ∧ p = ⟨some caKey, some bundle⟩
        ∧ w2 = ⟨w.reads + 4, w.requests ++
            [⟨caTemplate ⟨td, "/ca"⟩ (env.Now (w.reads + 1)) (env.Now (w.reads + 2)) caKey,
              caTemplate ⟨td, "/ca"⟩ (env.Now (w.reads + 1)) (env.Now (w.reads + 2)) caKey,
              caKey.Public, some caKey⟩]⟩ := by
  unfold NewPKI at h
  rw [RequireFromPath_ca] at h
  cases hk : env.GenerateKey w.reads 2048 with
  | error e => simp [hk] at h
  | ok caKey =>
    by_cases hz : td.IsZero = true
    · simp [hk, hz] at h
    · simp only [hk, hz, World.read, World.request, Bool.false_eq_true, if_false] at h
      cases hc : env.CreateCertificate (w.reads + 1 + 1 + 1)
          ⟨caTemplate ⟨td, "/ca"⟩ (env.Now (w.reads + 1)) (env.Now (w.reads + 1 + 1)) caKey,
            caTemplate ⟨td, "/ca"⟩ (env.Now (w.reads + 1)) (env.Now (w.reads + 1 + 1)) caKey,
            caKey.Public, some caKey⟩ with
      | error e => simp [hc] at h
      | ok der =>
        cases hb : env.ParseRawBundle td der with
        | error e => simp [hc, hb] at h
        | ok bundle =>
          simp only [hc, hb, Prod.mk.injEq, Outcome.ret.injEq, Option.some.injEq, true_and,
            and_true] at h
          refine ⟨caKey, der, bundle, rfl, by simpa using hz, hc, hb, h.1.symm, h.2.symm⟩

theorem caKeyUsage_exact :
    ∀ u ∈ x509.allKeyUsages,
      x509.KeyUsage.has (x509.KeyUsageCertSign ||| x509.KeyUsageCRLSign) u = true ↔
        (u = x509.KeyUsageCertSign ∨ u = x509.KeyUsageCRLSign) := by
  decide

theorem svidKeyUsage_exact :
    ∀ u ∈ x509.allKeyUsages,
      x509.KeyUsage.has (x509.KeyUsageKeyEncipherment ||| x509.KeyUsageKeyAgreement |||
          x509.KeyUsageDigitalSignature) u = true ↔
        (u = x509.KeyUsageDigitalSignature ∨ u = x509.KeyUsageKeyEncipherment
          ∨ u = x509.KeyUsageKeyAgreement) := by
  decide

theorem fixedEnv_parsesCreated : fixedEnv.ParsesCreated := by
  intro t req der h
  have hd : der = [req.template.SerialNumber.toNat, t, req.pub.N] := by
    simpa [fixedEnv] using h.symm
  subst hd
  exact ⟨by simp, _, rfl, rfl⟩

/-- C10. When `NewPKI` succeeds, the one certificate it asked for is self-signed (the
template is its own parent, and the signing key is the generated key, whose public
half is the certified key), is a certificate authority with valid basic constraints,
has the key usages certificate sign and CRL sign and no other, and has the single URI
`spiffe://<td>/ca`; the PKI holds the generated key, and its bundle is what
`x509bundle.ParseRaw` makes of the encoding for `td`: with a library that parses back
what it encoded, the bundle for `td` holding exactly that one certificate. -/
theorem NewPKI_certificate_authority (env : Env) (td : spiffeid.TrustDomain) (w : World)
    (p : PKI) (h : (NewPKI env td w).1 = .ret (some p, none)) :
    ∃ caKey tmpl der bundle,
      env.GenerateKey w.reads 2048 = .ok caKey
        ∧ (NewPKI env td w).2.requests = w.requests ++ [⟨tmpl, tmpl, caKey.Public, some caKey⟩]
        ∧ tmpl.PublicKey = some caKey.Public
        ∧ tmpl.IsCA = true
        ∧ tmpl.BasicConstraintsValid = true
        ∧ (∀ u ∈ x509.allKeyUsages, x509.KeyUsage.has tmpl.KeyUsage u = true ↔
            (u = x509.KeyUsageCertSign ∨ u = x509.KeyUsageCRLSign))
        ∧ tmpl.URIs = [⟨"spiffe", td.name, "/ca"⟩]
        ∧ env.CreateCertificate (w.reads + 3) ⟨tmpl, tmpl, caKey.Public, some caKey⟩ = .ok der
        ∧ p.caPrivateKey = some caKey
        ∧ env.ParseRawBundle td der = .ok bundle
        ∧ p.Bundle = some bundle
        ∧ (env.ParsesCreated →
            ∃ c, c.Raw = der ∧ env.ParseCertificates der = .ok [c] ∧ p.Bundle = some ⟨td, [c]⟩) := by
  obtain ⟨caKey, der, bundle, hk, hz, hc, hb, hp, hw⟩ :=
    NewPKI_success env td w (NewPKI env td w).2 p (Prod.ext h rfl)
  refine ⟨caKey, _, der, bundle, hk, by rw [hw], rfl, rfl, rfl, caKeyUsage_exact, ?_, hc, by rw [hp],
    hb, by rw [hp]; rfl, ?_⟩
  · have hz2 : (⟨td, "/ca"⟩ : spiffeid.ID).IsZero = false := hz
    simp [caTemplate, spiffeid.ID.URL, hz2]
  · intro hlib
    obtain ⟨c, hraw, hparse, hbundle⟩ := ParseRawBundle_of_parsesCreated env hlib td _ _ der hc
    rw [hb] at hbundle
    refine ⟨c, hraw, hparse, ?_⟩
    rw [hp, ← Except.ok.inj hbundle]
    rfl

/-- C8. For a PKI that `NewPKI` produced, with a library that parses back what it
encoded, and when key generation succeeds, `GenSVID` asks for exactly one certificate:
its template has the single URI of the identifier, the key usages digital signature,
key encipherment and key agreement and no other, the extended key usages server auth
and client auth, valid basic constraints and is no certificate authority; its parent
is the one authority of the bundle; it certifies the public half of the key just
generated and is signed with the private key of the PKI. -/
theorem GenSVID_leaf_certificate (env : Env) (td : spiffeid.TrustDomain) (w0 : World)
    (p : PKI) (hp : (NewPKI env td w0).1 = .ret (some p, none)) (hlib : env.ParsesCreated)
    (id : spiffeid.ID) (w : World) (key : rsa.PrivateKey)
    (hk : env.GenerateKey w.reads 2048 = .ok key) :
    ∃ tmpl ca caKey,
      p.Bundle = some ⟨td, [ca]⟩
        ∧ p.caPrivateKey = some caKey
        ∧ (p.GenSVID env id w).2.requests = w.requests ++ [⟨tmpl, ca, key.Public, some caKey⟩]
        ∧ tmpl.URIs = [id.URL]
        ∧ (∀ u ∈ x509.allKeyUsages, x509.KeyUsage.has tmpl.KeyUsage u = true ↔
            (u = x509.KeyUsageDigitalSignature ∨ u = x509.KeyUsageKeyEncipherment
              ∨ u = x509.KeyUsageKeyAgreement))
        ∧ tmpl.ExtKeyUsage = [.ExtKeyUsageServerAuth, .ExtKeyUsageClientAuth]
        ∧ tmpl.IsCA = false
        ∧ tmpl.BasicConstraintsValid = true
        ∧ tmpl.PublicKey = some key.Public := by
  obtain ⟨caKey, der, bundle, -, -, hc, hb, hpki, -⟩ :=
    NewPKI_success env td w0 (NewPKI env td w0).2 p (Prod.ext hp rfl)
  obtain ⟨c, -, -, hbundle⟩ := ParseRawBundle_of_parsesCreated env hlib td _ _ der hc
  rw [hb] at hbundle
  have hbd : bundle = ⟨td, [c]⟩ := Except.ok.inj hbundle
  subst hbd
  subst hpki
  refine ⟨svidTemplate id (env.Now (w.reads + 1)) (env.Now (w.reads + 2)) key, c, caKey,
    rfl, rfl, ?_, rfl, svidKeyUsage_exact, rfl, rfl, rfl, rfl⟩
  unfold PKI.GenSVID
  simp only [hk, World.read, World.request, x509bundle.Bundle.X509Authorities]
  repeat' split
  all_goals simp [Nat.add_assoc]

/-- C9, as stated, fails: for a PKI whose bundle holds no authority, with a library
whose key generation succeeds, `GenSVID` panics and so returns no error value. -/
theorem GenSVID_panics_without_authority :
    (x509bundle.New ⟨"example.org"⟩).X509Authorities = []
      ∧ (PKI.GenSVID fixedEnv ⟨some ⟨⟨15, 65537⟩, 1, [3, 5]⟩, some (x509bundle.New ⟨"example.org"⟩)⟩
          ⟨⟨"example.org"⟩, "/workload"⟩ ⟨0, []⟩).1
        = .panic "index out of range [0] with length 0" := by
  decide

/-- C9, amended. For a PKI whose bundle is nil or holds no authority, `GenSVID`
returns the error of the key generation when that fails, with a nil SVID; when the
key generation succeeds it panics; in both cases it asks for no certificate and
returns no SVID. -/
theorem GenSVID_empty_bundle (env : Env) (p : PKI) (id : spiffeid.ID) (w : World)
    (hempty : ∀ b, p.bundle = some b → b.X509Authorities = []) :
    (∀ err, env.GenerateKey w.reads 2048 = .error err →
        (p.GenSVID env id w).1 = .ret (none, some err))
      ∧ (∀ key, env.GenerateKey w.reads 2048 = .ok key →
          ∃ reason, (p.GenSVID env id w).1 = .panic reason)
      ∧ (p.GenSVID env id w).2.requests = w.requests
      ∧ ∀ svid err, (p.GenSVID env id w).1 ≠ .ret (some svid, err) := by
  unfold PKI.GenSVID
  cases hk : env.GenerateKey w.reads 2048 with
  | error e => simp [World.read]
  | ok key =>
    cases hb : p.bundle with
    | none => simp [World.read]
    | some b => simp [World.read, hempty b hb]

/-- An instance of C10: `NewPKI` for `example.org` with the library `fixedEnv`, from a
world without earlier reads, returns `examplePKI`. -/
theorem NewPKI_certificate_authority_witness :
    (NewPKI fixedEnv ⟨"example.org"⟩ ⟨0, []⟩).1 = .ret (some examplePKI, none)
      ∧ ∃ caKey tmpl der bundle,
        fixedEnv.GenerateKey 0 2048 = .ok caKey
          ∧ (NewPKI fixedEnv ⟨"example.org"⟩ ⟨0, []⟩).2.requests
            = [] ++ [⟨tmpl, tmpl, caKey.Public, some caKey⟩]
          ∧ tmpl.PublicKey = some caKey.Public
          ∧ tmpl.IsCA = true
          ∧ tmpl.BasicConstraintsValid = true
          ∧ (∀ u ∈ x509.allKeyUsages, x509.KeyUsage.has tmpl.KeyUsage u = true ↔
              (u = x509.KeyUsageCertSign ∨ u = x509.KeyUsageCRLSign))
          ∧ tmpl.URIs = [⟨"spiffe", "example.org", "/ca"⟩]
          ∧ fixedEnv.CreateCertificate (0 + 3) ⟨tmpl, tmpl, caKey.Public, some caKey⟩ = .ok der
          ∧ examplePKI.caPrivateKey = some caKey
          ∧ fixedEnv.ParseRawBundle ⟨"example.org"⟩ der = .ok bundle
          ∧ examplePKI.Bundle = some bundle
          ∧ (fixedEnv.ParsesCreated →
              ∃ c, c.Raw = der ∧ fixedEnv.ParseCertificates der = .ok [c]
                ∧ examplePKI.Bundle = some ⟨⟨"example.org"⟩, [c]⟩) :=
  ⟨by decide,
    NewPKI_certificate_authority fixedEnv ⟨"example.org"⟩ ⟨0, []⟩ examplePKI (by decide)⟩

/-- An instance of C8: `examplePKI` issues a certificate for a workload of
`example.org`, in a world with seven earlier reads. -/
theorem GenSVID_leaf_certificate_witness :
    (NewPKI fixedEnv ⟨"example.org"⟩ ⟨0, []⟩).1 = .ret (some examplePKI, none)
      ∧ fixedEnv.GenerateKey 7 2048 = .ok ⟨⟨29, 65537⟩, 8, [3, 5]⟩
      ∧ ∃ tmpl ca caKey,
        examplePKI.Bundle = some ⟨⟨"example.org"⟩, [ca]⟩
          ∧ examplePKI.caPrivateKey = some caKey
          ∧ (examplePKI.GenSVID fixedEnv ⟨⟨"example.org"⟩, "/workload"⟩ ⟨7, []⟩).2.requests
            = [] ++ [⟨tmpl, ca, rsa.PrivateKey.Public ⟨⟨29, 65537⟩, 8, [3, 5]⟩, some caKey⟩]
          ∧ tmpl.URIs = [spiffeid.ID.URL ⟨⟨"example.org"⟩, "/workload"⟩]
          ∧ (∀ u ∈ x509.allKeyUsages, x509.KeyUsage.has tmpl.KeyUsage u = true ↔
              (u = x509.KeyUsageDigitalSignature ∨ u = x509.KeyUsageKeyEncipherment
                ∨ u = x509.KeyUsageKeyAgreement))
          ∧ tmpl.ExtKeyUsage = [.ExtKeyUsageServerAuth, .ExtKeyUsageClientAuth]
          ∧ tmpl.IsCA = false
          ∧ tmpl.BasicConstraintsValid = true
          ∧ tmpl.PublicKey = some (rsa.PrivateKey.Public ⟨⟨29, 65537⟩, 8, [3, 5]⟩) :=
  ⟨by decide, by decide,
    GenSVID_leaf_certificate fixedEnv ⟨"example.org"⟩ ⟨0, []⟩ examplePKI (by decide)
      fixedEnv_parsesCreated ⟨⟨"example.org"⟩, "/workload"⟩ ⟨7, []⟩ ⟨⟨29, 65537⟩, 8, [3, 5]⟩
      (by decide)⟩

/-- An instance of the amended C9: a PKI with a key and the empty bundle of
`example.org`, with the library `fixedEnv`. -/
theorem GenSVID_empty_bundle_witness :
    (∀ err, fixedEnv.GenerateKey 0 2048 = .error err →
        (PKI.GenSVID fixedEnv ⟨some ⟨⟨15, 65537⟩, 1, [3, 5]⟩, some (x509bundle.New ⟨"example.org"⟩)⟩
          ⟨⟨"example.org"⟩, "/workload"⟩ ⟨0, []⟩).1 = .ret (none, some err))
      ∧ (∀ key, fixedEnv.GenerateKey 0 2048 = .ok key →
          ∃ reason,
            (PKI.GenSVID fixedEnv ⟨some ⟨⟨15, 65537⟩, 1, [3, 5]⟩, some (x509bundle.New ⟨"example.org"⟩)⟩
              ⟨⟨"example.org"⟩, "/workload"⟩ ⟨0, []⟩).1 = .panic reason)
      ∧ (PKI.GenSVID fixedEnv ⟨some ⟨⟨15, 65537⟩, 1, [3, 5]⟩, some (x509bundle.New ⟨"example.org"⟩)⟩
          ⟨⟨"example.org"⟩, "/workload"⟩ ⟨0, []⟩).2.requests = []
      ∧ ∀ svid err,
        (PKI.GenSVID fixedEnv ⟨some ⟨⟨15, 65537⟩, 1, [3, 5]⟩, some (x509bundle.New ⟨"example.org"⟩)⟩
          ⟨⟨"example.org"⟩, "/workload"⟩ ⟨0, []⟩).1 ≠ .ret (some svid, err) :=
  GenSVID_empty_bundle fixedEnv ⟨some ⟨⟨15, 65537⟩, 1, [3, 5]⟩, some (x509bundle.New ⟨"example.org"⟩)⟩
    ⟨⟨"example.org"⟩, "/workload"⟩ ⟨0, []⟩
    (fun b hb => by
      have : b = x509bundle.New ⟨"example.org"⟩ := (Option.some.inj hb).symm
      rw [this]
      rfl)

end spiffetest


end Traefik
